import Mathlib

/-!
Verification of the intelliparse document IR (`src/intelliparse/types.py`).

The Python module defines msgspec value structs: `Image`, the tagged
`PageItem` union (`TextPageItem`, `HeadingPageItem`, `TablePageItem`),
`SectionContent` with a merge operator `__add__`, and `ParsedFile` with
`merge_all`, `from_sections`, `from_parsed_files` and the derived views
`md` and `llm_described_text`.  This file embeds those definitions
shallowly: byte strings become `List Nat`, Python `float` dimension
fields become `Int` (the properties of interest only concern their
sign), `Optional[T]` becomes `Option T`, and Python lists become `List`.
-/

/-- Models Python truthiness-based defaulting `x or ""` on an
`Optional[str]`: `None or ""` is `""`, `"" or ""` is `""` (which equals
the string itself), and any other string is returned unchanged, so as a
value map it coincides with `Option.getD x ""`. -/
def orEmpty (x : Option String) : String :=
  x.getD ""

/-- Models Python `str()` applied to an `Optional[str]` as an f-string
interpolation does: `None` renders as the literal text `"None"`. -/
def pyStr : Option String → String
  | none => "None"
  | some s => s

/-- Models Python `sep.join(parts)`: empty list gives `""`, otherwise
the first part followed by `sep ++ part` for each remaining part
(CPython appends the separator between consecutive elements). -/
def pyJoin (sep : String) : List String → String
  | [] => ""
  | x :: xs => xs.foldl (fun acc y => acc ++ sep ++ y) x

/-- Models Python `enumerate(xs, i)`: pairs each element with its index
counting from `i`. -/
def pyEnumerate {α : Type} (i : Nat) : List α → List (Nat × α)
  | [] => []
  | x :: xs => (i, x) :: pyEnumerate (i + 1) xs

/-- `Image` struct from `types.py`: raw byte contents plus optional OCR
text, dimensions, original name and alt text.  The msgspec field
declarations carry no `ge=0` (or any other) constraint on `height` and
`width`, so construction is unconstrained. -/
structure Image where
  contents : List Nat
  ocr_text : Option String := none
  height : Option Int := none
  width : Option Int := none
  name : Option String := none
  alt : Option String := none
deriving DecidableEq, Repr

/-- The `PageItem` tagged union from `types.py`: `TextPageItem`
(tag `"text"`), `HeadingPageItem` (tag `"heading"`) and `TablePageItem`
(tag `"table"`).  Every variant carries the `md` markup field inherited
from the abstract base. -/
inductive PageItem where
  | text (md : String) (text : String)
  | heading (md : String) (heading : String) (lvl : Int)
  | table (md : String) (rows : List (List String)) (csv : String)
      (is_perfect_table : Bool)
deriving DecidableEq, Repr

/-- The discriminator value each variant declares (`tag="text"` etc. in
`types.py`), written into the `tag_field="type"` slot on serialization. -/
def PageItem.tag : PageItem → String
  | .text .. => "text"
  | .heading .. => "heading"
  | .table .. => "table"

/-- Modelled from the spec: the wire shape of one serialized `PageItem`.
The concrete codec lives in the msgspec library, not in `src/`; the
source only configures it (`tag_field="type"`, variant tags, field
names).  A payload is the discriminator string plus the union of all
variant fields, each possibly absent. -/
structure EncodedPageItem where
  type : String
  md : Option String := none
  text : Option String := none
  heading : Option String := none
  lvl : Option Int := none
  rows : Option (List (List String)) := none
  csv : Option String := none
  is_perfect_table : Option Bool := none
deriving DecidableEq, Repr

/-- Modelled from the spec: msgspec encoding of a `PageItem`, writing
the variant tag into the `type` field together with every field of the
variant. -/
def encodePageItem : PageItem → EncodedPageItem
  | .text m t =>
      { type := "text", md := some m, text := some t }
  | .heading m h l =>
      { type := "heading", md := some m, heading := some h, lvl := some l }
  | .table m r c p =>
      { type := "table", md := some m, rows := some r, csv := some c,
        is_perfect_table := some p }

/-- Modelled from the spec: msgspec decoding of a `PageItem` payload.
The discriminator selects the variant; required fields must be present;
`is_perfect_table` defaults to `false` when absent (its msgspec default);
a discriminator outside the declared tags is a decoding error. -/
def decodePageItem (e : EncodedPageItem) : Except String PageItem :=
  if e.type = "text" then
    match e.md, e.text with
    | some m, some t => .ok (.text m t)
    | _, _ => .error "missing required field for tag text"
  else if e.type = "heading" then
    match e.md, e.heading, e.lvl with
    | some m, some h, some l => .ok (.heading m h l)
    | _, _, _ => .error "missing required field for tag heading"
  else if e.type = "table" then
    match e.md, e.rows, e.csv with
    | some m, some r, some c =>
        .ok (.table m r c (e.is_perfect_table.getD false))
    | _, _, _ => .error "missing required field for tag table"
  else
    .error ("invalid value for tag type: " ++ e.type)

/-- `SectionContent` struct from `types.py`: section number, plain
text, optional markdown, images and page items. -/
structure SectionContent where
  number : Int
  text : String
  md : Option String := none
  images : List Image := []
  items : List PageItem := []
deriving DecidableEq, Repr

/-- `SectionContent.__add__` from `types.py`: keeps `self.number`,
concatenates texts, concatenates `(self.md or "") + (other.md or "")`
into an always-present markdown, and chains images and items. -/
def SectionContent.add (a b : SectionContent) : SectionContent :=
  { number := a.number
    text := a.text ++ b.text
    md := some (orEmpty a.md ++ orEmpty b.md)
    images := a.images ++ b.images
    items := a.items ++ b.items }

/-- `ParsedFile` struct from `types.py`: file name plus its sections. -/
structure ParsedFile where
  name : String
  sections : List SectionContent
deriving DecidableEq, Repr

/-- `ParsedFile.merge_all` from `types.py`: keeps `self.name` and chains
`self.sections` with each other file's sections in input order. -/
def ParsedFile.merge_all (self : ParsedFile) (others : List ParsedFile) :
    ParsedFile :=
  { name := self.name
    sections := self.sections ++ (others.map ParsedFile.sections).flatten }

/-- `ParsedFile.from_sections` from `types.py`. -/
def ParsedFile.from_sections (name : String)
    (sections : List SectionContent) : ParsedFile :=
  { name := name, sections := sections }

/-- `ParsedFile.from_parsed_files` from `types.py`: fixed name
`"MergedFile"` and the chained sections of all input files. -/
def ParsedFile.from_parsed_files (files : List ParsedFile) : ParsedFile :=
  { name := "MergedFile"
    sections := (files.map ParsedFile.sections).flatten }

/-- `ParsedFile.md` property from `types.py`:
`"\n".join([sec.md or "" for sec in self.sections])`. -/
def ParsedFile.md (self : ParsedFile) : String :=
  pyJoin "\n" (self.sections.map (fun sec => orEmpty sec.md))

/-- The f-string body of the `llm_described_text` list comprehension in
`types.py`: one `<section_num> {section.md} </section_num>` fragment for
an `enumerate` pair. -/
def sectionTagLine (p : Nat × SectionContent) : String :=
  "<section_" ++ toString p.1 ++ "> " ++ pyStr p.2.md ++
    " </section_" ++ toString p.1 ++ ">"

/-- `ParsedFile.llm_described_text` property from `types.py`: each
section's markdown (an `Optional[str]` interpolated by an f-string, so
`None` renders as `"None"`) wrapped in `<section_i>` tags indexed by
`enumerate`, joined by spaces, inside a `<file>` envelope. -/
def ParsedFile.llm_described_text (self : ParsedFile) : String :=
  let sections := pyJoin " " ((pyEnumerate 0 self.sections).map sectionTagLine)
  "<file>\n\n**name:** " ++ self.name ++ " \n**sections:** " ++ sections ++
    "\n\n</file>"

/-! ### Spec-side reformulations

These definitions follow the spec's wording rather than the source, so
that the view/merge claims can be stated as genuine refinements against
the embedded code rather than restatements of it. -/

/-- Spec-side contribution of one section's markup to the markup view:
absent markup contributes the empty string. -/
def mdContrib : Option String → String
  | none => ""
  | some s => s

/-- Spec-side markup view: the sections' markup contributions joined in
order by a single line-break separator. -/
def mdSpecJoin : List (Option String) → String
  | [] => ""
  | [m] => mdContrib m
  | m :: m2 :: rest => mdContrib m ++ "\n" ++ mdSpecJoin (m2 :: rest)

/-- Spec-side rendering of one section of the LLM-facing view at
zero-based position `i`: the markup between positional delimiter tags,
with absent markup contributing the literal text `"None"`. -/
def sectionTagSpec (i : Nat) (m : Option String) : String :=
  "<section_" ++ toString i ++ "> " ++ pyStr m ++
    " </section_" ++ toString i ++ ">"

/-- Spec-side rendering of the section list of the LLM-facing view,
tagged by zero-based position starting at `i` and separated by single
spaces. -/
def sectionsRenderSpec (i : Nat) : List SectionContent → String
  | [] => ""
  | [s] => sectionTagSpec i s.md
  | s :: s2 :: rest =>
      sectionTagSpec i s.md ++ " " ++ sectionsRenderSpec (i + 1) (s2 :: rest)

/-- Spec-side concatenation of the sections of a list of files, in
input order. -/
def concatSectionsSpec : List ParsedFile → List SectionContent
  | [] => []
  | f :: fs => f.sections ++ concatSectionsSpec fs

/-! ### Helper lemmas -/

/-- The separator-prefixed tail of a join: `sep ++ x` for each element. -/
def sepRun (sep : String) : List String → String
  | [] => ""
  | x :: xs => sep ++ x ++ sepRun sep xs

theorem foldl_append_sep (sep : String) (xs : List String) :
    ∀ acc : String,
      xs.foldl (fun a y => a ++ sep ++ y) acc = acc ++ sepRun sep xs := by
  induction xs with
  | nil =>
      intro acc
      simp [sepRun]
  | cons x xs ih =>
      intro acc
      rw [List.foldl_cons, ih]
      simp [sepRun, String.append_assoc]

theorem pyJoin_cons (sep x : String) (xs : List String) :
    pyJoin sep (x :: xs) = x ++ sepRun sep xs := by
  simp [pyJoin, foldl_append_sep]

theorem pyJoin_cons_cons (sep x y : String) (xs : List String) :
    pyJoin sep (x :: y :: xs) = x ++ sep ++ pyJoin sep (y :: xs) := by
  simp [pyJoin_cons, sepRun, String.append_assoc]

theorem pyJoin_map_orEmpty (ms : List (Option String)) :
    pyJoin "\n" (ms.map orEmpty) = mdSpecJoin ms := by
  induction ms with
  | nil => rfl
  | cons m rest ih =>
      cases rest with
      | nil =>
          cases m <;> rfl
      | cons m2 rest2 =>
          simp only [List.map_cons] at ih ⊢
          rw [pyJoin_cons_cons, ih]
          cases m <;> simp [mdSpecJoin, mdContrib, orEmpty, String.append_assoc]

theorem pyJoin_enumerate_tags (ss : List SectionContent) :
    ∀ i : Nat,
      pyJoin " " ((pyEnumerate i ss).map sectionTagLine) =
        sectionsRenderSpec i ss := by
  induction ss with
  | nil =>
      intro i
      rfl
  | cons s rest ih =>
      intro i
      cases rest with
      | nil => rfl
      | cons s2 rest2 =>
          simp only [pyEnumerate, List.map_cons]
          rw [pyJoin_cons_cons]
          simp only [pyEnumerate, List.map_cons] at ih
          rw [ih (i + 1)]
          simp [sectionsRenderSpec, sectionTagSpec, sectionTagLine,
            String.append_assoc]

theorem concatSectionsSpec_eq_flatten (fs : List ParsedFile) :
    concatSectionsSpec fs = (fs.map ParsedFile.sections).flatten := by
  induction fs with
  | nil => rfl
  | cons f fs ih => simp [concatSectionsSpec, ih]

/-! ### Claim theorems -/

/-- Claim C1: merging two sections keeps the left operand's number,
concatenates the texts, and concatenates the image and item sequences
left-then-right, so the merged lengths are the sums of the operand
lengths. -/
theorem section_add_merges_fields (a b : SectionContent) :
    (a.add b).number = a.number ∧
      (a.add b).text = a.text ++ b.text ∧
      (a.add b).images = a.images ++ b.images ∧
      (a.add b).items = a.items ++ b.items ∧
      (a.add b).images.length = a.images.length + b.images.length ∧
      (a.add b).items.length = a.items.length + b.items.length := by
  simp [SectionContent.add]

/-- Claim C2: the merged section's markdown is the concatenation of the
operands' markdown with absent markdown treated as the empty string, and
it is always present, never `none`. -/
theorem section_add_md_always_present (a b : SectionContent) :
    (a.add b).md = some (a.md.getD "" ++ b.md.getD "") ∧
      (a.add b).md ≠ none := by
  simp [SectionContent.add, orEmpty]

/-- Claim C3: decoding the encoding of any `PageItem` variant yields the
original item, and the encoding writes the variant's declared
discriminator into the `type` field. -/
theorem pageitem_roundtrip (item : PageItem) :
    decodePageItem (encodePageItem item) = Except.ok item ∧
      (encodePageItem item).type = item.tag := by
  cases item <;> exact ⟨rfl, rfl⟩

/-- Claim C4: decoding a payload whose discriminator lies outside
`{"text", "heading", "table"}` fails with a decoding error and never
yields one of the known variants. -/
theorem pageitem_unknown_tag_rejected (e : EncodedPageItem)
    (h1 : e.type ≠ "text") (h2 : e.type ≠ "heading")
    (h3 : e.type ≠ "table") :
    decodePageItem e =
        Except.error ("invalid value for tag type: " ++ e.type) ∧
      ∀ item : PageItem, decodePageItem e ≠ Except.ok item := by
  have hd : decodePageItem e =
      Except.error ("invalid value for tag type: " ++ e.type) := by
    unfold decodePageItem
    rw [if_neg h1, if_neg h2, if_neg h3]
  refine ⟨hd, fun item hok => ?_⟩
  rw [hd] at hok
  exact Except.noConfusion hok

/-- Witness for C4 at the concrete discriminator `"blob"`. -/
theorem pageitem_unknown_tag_rejected_witness :
    decodePageItem { type := "blob" } =
        Except.error ("invalid value for tag type: " ++ "blob") ∧
      ∀ item : PageItem, decodePageItem { type := "blob" } ≠ Except.ok item :=
  pageitem_unknown_tag_rejected { type := "blob" }
    (by decide) (by decide) (by decide)

/-- Claim C5: `merge_all` keeps the primary file's name and returns the
primary file's sections followed by the sections of the other files in
input order, each section unchanged. -/
theorem merge_all_keeps_name_concats_sections (p : ParsedFile)
    (others : List ParsedFile) :
    (p.merge_all others).name = p.name ∧
      (p.merge_all others).sections =
        p.sections ++ concatSectionsSpec others := by
  refine ⟨rfl, ?_⟩
  simp [ParsedFile.merge_all, concatSectionsSpec_eq_flatten]

/-- Claim C6: `from_parsed_files` always names the result with the
sentinel `"MergedFile"` and concatenates every input's sections in
order; on the empty input it returns the sentinel-named file with no
sections. -/
theorem from_parsed_files_sentinel_and_concat (files : List ParsedFile) :
    (ParsedFile.from_parsed_files files).name = "MergedFile" ∧
      (ParsedFile.from_parsed_files files).sections =
        concatSectionsSpec files ∧
      ParsedFile.from_parsed_files [] =
        { name := "MergedFile", sections := [] } := by
  refine ⟨rfl, ?_, rfl⟩
  simp [ParsedFile.from_parsed_files, concatSectionsSpec_eq_flatten]

/-- Claim C7: the `md` view equals the sections' markup contributions
joined in order by a single line break, absent markup contributing the
empty string; in particular markups `"# A"`, `"# B"` yield `"# A\n# B"`
and an absent first markup yields `"\n# B"`, never the text `"None"`. -/
theorem parsedfile_md_matches_spec_join (pf : ParsedFile) :
    pf.md = mdSpecJoin (pf.sections.map SectionContent.md) ∧
      ParsedFile.md { name := "f", sections :=
          [{ number := 1, text := "", md := some "# A" },
           { number := 2, text := "", md := some "# B" }] } = "# A\n# B" ∧
      ParsedFile.md { name := "f", sections :=
          [{ number := 1, text := "" },
           { number := 2, text := "", md := some "# B" }] } = "\n# B" := by
  refine ⟨?_, by decide, by decide⟩
  rw [ParsedFile.md]
  have hmap : pf.sections.map (fun sec => orEmpty sec.md) =
      (pf.sections.map SectionContent.md).map orEmpty := by
    simp [List.map_map, Function.comp]
  rw [hmap, pyJoin_map_orEmpty]

/-- Claim C8: the section merge is associative, and it is not
commutative in general. -/
theorem section_add_assoc_and_noncomm :
    (∀ a b c : SectionContent, (a.add b).add c = a.add (b.add c)) ∧
      ∃ a b : SectionContent, a.add b ≠ b.add a := by
  constructor
  · intro a b c
    simp [SectionContent.add, orEmpty, String.append_assoc,
      List.append_assoc]
  · exact ⟨{ number := 1, text := "" }, { number := 2, text := "" },
      by decide⟩

/-- Claim C9 counterexample: the dimension invariant does not hold for
every `Image` value — the struct places no constraint on `height` or
`width`, so an image with present negative height is representable. -/
theorem image_dim_invariant_fails :
    ¬ ∀ img : Image,
        (∀ h : Int, img.height = some h → 0 ≤ h) ∧
          (∀ w : Int, img.width = some w → 0 ≤ w) := by
  intro hall
  have hneg :=
    (hall { contents := [], height := some (-1), width := some (-2) }).1
      (-1) rfl
  omega

/-- Claim C9 amended: `Image` construction stores the given dimension
values verbatim — no operation validates or clamps them — so the
non-negativity of present dimensions is a producer obligation, not a
type invariant, and an image with a present negative height exists. -/
theorem image_dims_stored_verbatim (c : List Nat) (o : Option String)
    (h w : Option Int) (n a : Option String) :
    (Image.mk c o h w n a).height = h ∧ (Image.mk c o h w n a).width = w ∧
      ∃ img : Image, img.height = some (-1) :=
  ⟨rfl, rfl, ⟨{ contents := [], height := some (-1) }, rfl⟩⟩

/-- Claim C10: the LLM-facing view wraps each section's markdown in
delimiter tags indexed by zero-based position (not by the section's
`number` field), with absent markdown rendered as the literal text
`"None"`; the concrete example has numbers 42 and 99 yet uses tags
`section_0` and `section_1`. -/
theorem llm_described_text_matches_spec (pf : ParsedFile) :
    pf.llm_described_text =
        "<file>\n\n**name:** " ++ pf.name ++ " \n**sections:** " ++
          sectionsRenderSpec 0 pf.sections ++ "\n\n</file>" ∧
      ParsedFile.llm_described_text { name := "f", sections :=
          [{ number := 42, text := "" },
           { number := 99, text := "", md := some "X" }] } =
        "<file>\n\n**name:** f \n**sections:** <section_0> None </section_0> <section_1> X </section_1>\n\n</file>" := by
  refine ⟨?_, by decide⟩
  simp only [ParsedFile.llm_described_text, pyJoin_enumerate_tags]
